import Mathlib

/-!
Verification of the prguard PR-spam scanner and blocklist reconciler.

The definitions below are a shallow embedding of the Go sources:
  internal/config/config.go      (FiltersConfig, IsReadmeFile)
  internal/scanner/scanner.go    (ScanPR, the four signal predicates, ScanRepository)
  internal/blocklist             (Manager.importEntries, shouldUpdate, ExportJSON)
  internal/database/database.go  (AddEntry, GetEntry, UpdateEntry over the blocklist table)
  internal/database/schema.go    (PRIMARY KEY and CHECK constraints of the blocklist table)
  internal/github                (PullRequest, User records)

Go strings are modelled as Lean String values; the Go standard-library string
operations used by the code (strings.ToLower, strings.HasPrefix,
strings.Contains) are re-implemented over the character list so that all
definitions evaluate by kernel reduction.  The inputs relevant to the claims
are ASCII, where the ASCII case mapping below agrees with strings.ToLower.
Go int fields are modelled as Int; time.Time and time.Duration values as
Int nanoseconds (time.Hour = 3600000000000 ns).
-/

namespace PRGuard

/-- ASCII lower-casing of one character, as strings.ToLower acts on ASCII. -/
def lowerChar (c : Char) : Char :=
  if 65 ≤ c.toNat ∧ c.toNat ≤ 90 then Char.ofNat (c.toNat + 32) else c

/-- Embedding of Go strings.ToLower (on the ASCII fragment). -/
def strToLower (s : String) : String := ⟨s.data.map lowerChar⟩

/-- Embedding of Go strings.HasPrefix. -/
def strStartsWith (s pre : String) : Bool := pre.data.isPrefixOf s.data

/-- Occurrence of a pattern inside a character list; an empty pattern occurs
everywhere, matching Go strings.Contains. -/
def listContainsSeq : List Char → List Char → Bool
  | _, [] => true
  | [], _ :: _ => false
  | c :: cs, p :: ps => (p :: ps).isPrefixOf (c :: cs) || listContainsSeq cs (p :: ps)

/-- Embedding of Go strings.Contains. -/
def strContains (s pat : String) : Bool := listContainsSeq s.data pat.data

/-- internal/config/config.go FiltersConfig. -/
structure FiltersConfig where
  minFiles : Int
  minLines : Int
  accountAgeDays : Int
  readmeOnlyBlock : Bool
  whitelist : List String
  spamPhrases : List String
deriving DecidableEq

/-- internal/config/config.go Config, restricted to the field the scanner
reads (s.config.Filters). -/
structure Config where
  filters : FiltersConfig
deriving DecidableEq

/-- internal/github PullRequest record. createdAt is ns since epoch. -/
structure PullRequest where
  number : Int
  title : String
  body : String
  author : String
  createdAt : Int
  filesCount : Int
  additions : Int
  deletions : Int
  files : List String
  state : String
  htmlURL : String
deriving DecidableEq

/-- internal/github User record. createdAt is ns since epoch; userType is the
Go field Type. -/
structure User where
  login : String
  createdAt : Int
  userType : String
deriving DecidableEq

/-- internal/scanner/scanner.go ScanResult. -/
structure ScanResult where
  pr : PullRequest
  isSpam : Bool
  isUncertain : Bool
  reasons : List String
  severity : String
  recommendAction : String
deriving DecidableEq

/-- internal/config/config.go IsReadmeFile: lower-case the whole filename and
test the prefix readme. -/
def IsReadmeFile (filename : String) : Bool :=
  strStartsWith (strToLower filename) "readme"

/-- internal/scanner/scanner.go isWhitelisted: linear scan of the whitelist. -/
def isWhitelisted (cfg : Config) (username : String) : Bool :=
  cfg.filters.whitelist.any (fun w => w == username)

/-- internal/scanner/scanner.go isSingleFileReadmeEdit. -/
def isSingleFileReadmeEdit (cfg : Config) (pr : PullRequest) : Bool :=
  if !cfg.filters.readmeOnlyBlock then false
  else if pr.filesCount != 1 then false
  else pr.files.any IsReadmeFile

/-- internal/scanner/scanner.go isNewAccount: account age (now minus
createdAt) strictly below accountAgeDays * 24 * time.Hour. -/
def isNewAccount (cfg : Config) (now : Int) (user : User) : Bool :=
  let threshold : Int := cfg.filters.accountAgeDays * 24 * 3600000000000
  let accountAge : Int := now - user.createdAt
  decide (accountAge < threshold)

/-- internal/scanner/scanner.go isMinimalChanges. -/
def isMinimalChanges (cfg : Config) (pr : PullRequest) : Bool :=
  let totalLines : Int := pr.additions + pr.deletions
  decide (pr.filesCount < cfg.filters.minFiles) || decide (totalLines < cfg.filters.minLines)

/-- internal/scanner/scanner.go containsSpamPhrases. -/
def containsSpamPhrases (cfg : Config) (pr : PullRequest) : Bool :=
  if cfg.filters.spamPhrases.isEmpty then false
  else
    let text := strToLower (pr.title ++ " " ++ pr.body)
    cfg.filters.spamPhrases.any (fun phrase => strContains text (strToLower phrase))

/-- The guard user != nil && s.isNewAccount(user) from ScanPR, with the Go
nil pointer rendered as Option. -/
def userIsNew (cfg : Config) (now : Int) (user : Option User) : Bool :=
  match user with
  | some u => isNewAccount cfg now u
  | none => false

/-- internal/scanner/scanner.go ScanPR, as sequential updates of the result
record, in the order of the Go statements. -/
def ScanPR (cfg : Config) (now : Int) (pr : PullRequest) (user : Option User) : ScanResult :=
  let base : ScanResult :=
    { pr := pr, isSpam := false, isUncertain := false, reasons := [],
      severity := "low", recommendAction := "" }
  if isWhitelisted cfg pr.author then base
  else
    let r1 :=
      if isSingleFileReadmeEdit cfg pr then
        { base with isSpam := true,
                    reasons := base.reasons ++ ["Single-file README-only edit"],
                    severity := "high" }
      else base
    let r2 :=
      if userIsNew cfg now user then
        if r1.isSpam then
          { r1 with reasons := r1.reasons ++ ["Account created recently"] }
        else
          { r1 with isUncertain := true,
                    reasons := r1.reasons ++ ["Account created recently (suspicious but not definitive)"] }
      else r1
    let r3 :=
      if isMinimalChanges cfg pr then
        if r2.isSpam then
          { r2 with reasons := r2.reasons ++ ["Minimal changes (below threshold)"] }
        else
          { r2 with isUncertain := true,
                    reasons := r2.reasons ++ ["Minimal changes (below threshold)"] }
      else r2
    let r4 :=
      if containsSpamPhrases cfg pr then
        { r3 with isSpam := true,
                  reasons := r3.reasons ++ ["Contains spam phrases"],
                  severity := "high" }
      else r3
    { r4 with recommendAction :=
        if r4.isSpam then "Block user and close PR"
        else if r4.isUncertain then "Manual review recommended"
        else "No action needed" }

/-- internal/scanner/scanner.go ScanResults. -/
structure ScanResults where
  total : Nat
  spam : List ScanResult
  uncertain : List ScanResult
  clean : List ScanResult
deriving DecidableEq

/-- The two GitHubClient operations ScanRepository uses, each fallible. -/
structure GitHubClient where
  getPullRequests : String → String → Except String (List PullRequest)
  getUser : String → Except String User

/-- The loop body of ScanRepository: fetch the author (a failed GetUser
leaves user nil), classify, and append the result to exactly one bucket. -/
def scanStep (cfg : Config) (now : Int) (gh : GitHubClient)
    (results : ScanResults) (pr : PullRequest) : ScanResults :=
  let user : Option User := (gh.getUser pr.author).toOption
  let scanResult := ScanPR cfg now pr user
  if scanResult.isSpam then
    { results with spam := results.spam ++ [scanResult] }
  else if scanResult.isUncertain then
    { results with uncertain := results.uncertain ++ [scanResult] }
  else
    { results with clean := results.clean ++ [scanResult] }

/-- internal/scanner/scanner.go ScanRepository: fetch the open PRs, classify
each in order, and partition the results. -/
def ScanRepository (cfg : Config) (now : Int) (gh : GitHubClient)
    (owner repo : String) : Except String ScanResults :=
  match gh.getPullRequests owner repo with
  | .error e => .error e
  | .ok prs =>
    .ok (prs.foldl (scanStep cfg now gh)
      { total := prs.length, spam := [], uncertain := [], clean := [] })

/-- The classification of every fetched PR, in fetch order, each with the
author record its (possibly failed) lookup produced. -/
def classifyAll (cfg : Config) (now : Int) (gh : GitHubClient)
    (prs : List PullRequest) : List ScanResult :=
  prs.map (fun pr => ScanPR cfg now pr (gh.getUser pr.author).toOption)

/-- pkg/models/blocklist.go BlocklistEntry; timestamp as Int nanoseconds. -/
structure BlocklistEntry where
  id : String
  username : String
  reason : String
  evidenceURL : String
  timestamp : Int
  blockedBy : String
  severity : String
  source : String
  metadata : String
deriving DecidableEq

/-- internal/blocklist severityMap: the Go map literal, with the zero value 0
for a key outside the map. -/
def severityMap (s : String) : Int :=
  if s == "low" then 1
  else if s == "medium" then 2
  else if s == "high" then 3
  else 0

/-- internal/blocklist shouldUpdate: strictly higher severity wins. -/
def shouldUpdate (existing incoming : BlocklistEntry) : Bool :=
  decide (severityMap incoming.severity > severityMap existing.severity)

/-- internal/database/schema.go CHECK constraint: severity IN (low, medium, high). -/
def validSeverity (s : String) : Bool :=
  s == "low" || s == "medium" || s == "high"

/-- internal/database/schema.go CHECK constraint: source IN (manual, imported, auto-detected). -/
def validSource (s : String) : Bool :=
  s == "manual" || s == "imported" || s == "auto-detected"

/-- internal/database/database.go GetEntry: QueryRow on WHERE id = ?, none
when no row matches (sql.ErrNoRows is mapped to nil, nil). -/
def GetEntry (tbl : List BlocklistEntry) (id : String) : Option BlocklistEntry :=
  tbl.find? (fun e => e.id == id)

/-- internal/database/database.go AddEntry: INSERT, failing on the PRIMARY
KEY constraint for a duplicate id and on the schema CHECK constraints. -/
def AddEntry (tbl : List BlocklistEntry) (e : BlocklistEntry) :
    Except String (List BlocklistEntry) :=
  if tbl.any (fun x => x.id == e.id) then
    .error "UNIQUE constraint failed: blocklist.id"
  else if !(validSeverity e.severity && validSource e.source) then
    .error "CHECK constraint failed: blocklist"
  else
    .ok (tbl ++ [e])

/-- The row mutation of UpdateEntry: SET reason, evidence_url, severity,
metadata on the row WHERE id matches; all other columns are untouched. -/
def updateRow (incoming e : BlocklistEntry) : BlocklistEntry :=
  if e.id == incoming.id then
    { e with reason := incoming.reason, evidenceURL := incoming.evidenceURL,
             severity := incoming.severity, metadata := incoming.metadata }
  else e

/-- internal/database/database.go UpdateEntry: UPDATE ... WHERE id = ?,
failing on the severity CHECK constraint when a row is actually rewritten. -/
def UpdateEntry (tbl : List BlocklistEntry) (e : BlocklistEntry) :
    Except String (List BlocklistEntry) :=
  if tbl.any (fun x => x.id == e.id) && !validSeverity e.severity then
    .error "CHECK constraint failed: blocklist"
  else
    .ok (tbl.map (updateRow e))

/-- The three store operations importEntries calls, over an abstract store
state, each fallible like the corresponding database call. -/
structure DBOps (σ : Type) where
  getEntry : σ → String → Except String (Option BlocklistEntry)
  addEntry : σ → BlocklistEntry → Except String σ
  updateEntry : σ → BlocklistEntry → Except String σ

/-- The blocklist table of database.go as a concrete DBOps instance. -/
def sqliteOps : DBOps (List BlocklistEntry) :=
  { getEntry := fun tbl id => .ok (GetEntry tbl id)
    addEntry := AddEntry
    updateEntry := UpdateEntry }

/-- Result of importEntries: final store state, count, and error if any;
the error case keeps the partially updated store and the partial count,
matching the Go return (imported, err). -/
inductive ImportOutcome (σ : Type) where
  | ok (state : σ) (imported : Nat)
  | err (state : σ) (imported : Nat) (msg : String)
deriving DecidableEq

/-- internal/blocklist importEntries, with the running imported counter made
explicit; the error strings are the Go wrap messages. -/
def importEntriesAux (ops : DBOps σ) : σ → Nat → List BlocklistEntry → ImportOutcome σ
  | s, imported, [] => .ok s imported
  | s, imported, entry :: rest =>
    match ops.getEntry s entry.id with
    | .error e => .err s imported ("failed to check for existing entry: " ++ e)
    | .ok (some existing) =>
      if shouldUpdate existing entry then
        match ops.updateEntry s entry with
        | .error e => .err s imported ("failed to update entry: " ++ e)
        | .ok s1 => importEntriesAux ops s1 (imported + 1) rest
      else
        importEntriesAux ops s imported rest
    | .ok none =>
      match ops.addEntry s { entry with source := "imported" } with
      | .error e => .err s imported ("failed to add entry: " ++ e)
      | .ok s1 => importEntriesAux ops s1 (imported + 1) rest

/-- internal/blocklist importEntries, counter starting at 0. -/
def importEntries (ops : DBOps σ) (s : σ) (entries : List BlocklistEntry) :
    ImportOutcome σ :=
  importEntriesAux ops s 0 entries

/-- Source tag rewrite applied by the import insert path. -/
def setSourceImported (e : BlocklistEntry) : BlocklistEntry :=
  { e with source := "imported" }

/-- internal/database/database.go ListEntries: all rows ordered by timestamp
descending (the sort used here is one valid ORDER BY result). -/
def listEntries (tbl : List BlocklistEntry) : List BlocklistEntry :=
  List.insertionSort (fun a b => b.timestamp ≤ a.timestamp) tbl

/-- internal/blocklist ExportJSON: serialize ListEntries; modelled as the
entry list itself, JSON encoding and decoding cancelling out. -/
def exportJSON (tbl : List BlocklistEntry) : List BlocklistEntry :=
  listEntries tbl

/-- The base name of a slash-separated path: the component after the last
slash.  Written from the claim wording (the code has no such function); used
only to state what the claim asserts about files inside directories. -/
def baseName (p : String) : String :=
  ⟨p.data.foldl (fun acc c => if c = '/' then [] else acc ++ [c]) []⟩

/-- The severity order named by the spec: low(1) < medium(2) < high(3).
Written from the spec wording, to be compared with the severityMap of the
code. -/
def specSeverityRank (s : String) : Int :=
  if s == "low" then 1
  else if s == "medium" then 2
  else if s == "high" then 3
  else 0

/-- The import reconciliation exactly as the spec describes it, written from
its words: per incoming entry, look up by id; if absent, insert with source
forced to imported and count; if present and the incoming severity is
strictly greater, overwrite reason, evidenceUrl, severity and metadata (never
id or timestamp) and count; otherwise change nothing.  Returns the final
store and the count. -/
def specImport : List BlocklistEntry → List BlocklistEntry → List BlocklistEntry × Nat
  | store, [] => (store, 0)
  | store, e :: rest =>
    match store.find? (fun x => x.id == e.id) with
    | none =>
      let res := specImport (store ++ [{ e with source := "imported" }]) rest
      (res.1, res.2 + 1)
    | some ex =>
      if specSeverityRank ex.severity < specSeverityRank e.severity then
        let res := specImport
          (store.map (fun old =>
            if old.id == e.id then
              { old with reason := e.reason, evidenceURL := e.evidenceURL,
                         severity := e.severity, metadata := e.metadata }
            else old)) rest
        (res.1, res.2 + 1)
      else
        specImport store rest

/-- Test configuration: the default thresholds of config.SetDefaults plus
the whitelist and spam phrases of the scanner test fixture. -/
def cfgDefault : Config :=
  { filters :=
    { minFiles := 2, minLines := 10, accountAgeDays := 7, readmeOnlyBlock := true,
      whitelist := ["dependabot[bot]", "renovate[bot]"],
      spamPhrases := ["click here", "visit my site"] } }

/-- A PR whose single changed file is a README inside a directory. -/
def prDocsReadme : PullRequest :=
  { number := 1, title := "Update README", body := "", author := "someuser",
    createdAt := 0, filesCount := 1, additions := 5, deletions := 0,
    files := ["docs/README.md"], state := "open", htmlURL := "" }

/-- A PR authored by a whitelisted bot. -/
def prWhitelisted : PullRequest :=
  { number := 2, title := "Update dependencies", body := "", author := "dependabot[bot]",
    createdAt := 0, filesCount := 1, additions := 1, deletions := 0,
    files := ["go.mod"], state := "open", htmlURL := "" }

/-- A PR with minimal changes (an uncertain signal) whose title also matches
a spam phrase (a spam signal). -/
def prSpamUncertain : PullRequest :=
  { number := 3, title := "please click here", body := "", author := "someuser",
    createdAt := 0, filesCount := 1, additions := 0, deletions := 0,
    files := ["main.go"], state := "open", htmlURL := "" }

/-- A PR sitting exactly at the default thresholds: 2 files, 10 changed lines. -/
def prBoundary : PullRequest :=
  { number := 4, title := "Fix", body := "", author := "someuser",
    createdAt := 0, filesCount := 2, additions := 6, deletions := 4,
    files := ["a.go", "b.go"], state := "open", htmlURL := "" }

/-- A PR far above every threshold and free of spam phrases. -/
def prLarge : PullRequest :=
  { number := 5, title := "Add new feature", body := "adds a feature", author := "contributor",
    createdAt := 0, filesCount := 5, additions := 100, deletions := 50,
    files := ["src/main.go", "README.md", "test.go"], state := "open", htmlURL := "" }

/-- An author whose account was created at time 0. -/
def userEpoch : User :=
  { login := "someuser", createdAt := 0, userType := "User" }

/-- A stored blocklist entry of severity low. -/
def entryLow : BlocklistEntry :=
  { id := "id-a", username := "spammer", reason := "original reason",
    evidenceURL := "https://example.com/1", timestamp := 5, blockedBy := "admin",
    severity := "low", source := "manual", metadata := "\x7b\x7d" }

/-- An incoming entry with the same id as entryLow but severity high. -/
def entryHighSameId : BlocklistEntry :=
  { entryLow with reason := "updated reason",
                  evidenceURL := "https://example.com/2", severity := "high",
                  source := "imported" }

/-- An incoming entry with a fresh id and severity medium. -/
def entryMedB : BlocklistEntry :=
  { entryLow with id := "id-b", username := "other", timestamp := 9,
                  severity := "medium" }

/-- An incoming entry whose severity violates the schema CHECK constraint. -/
def entryBadSeverity : BlocklistEntry :=
  { entryLow with id := "id-c", severity := "banana" }

/-- A store whose entry lookups always fail, as when the storage layer
reports an error. -/
def failingOps : DBOps (List BlocklistEntry) :=
  { getEntry := fun _ _ => .error "disk failure"
    addEntry := AddEntry
    updateEntry := UpdateEntry }

/-- A PR-data source returning two PRs, where the author lookup succeeds for
the first author and fails for the second. -/
def ghTwoPRs : GitHubClient :=
  { getPullRequests := fun _ _ => .ok [prSpamUncertain, prLarge]
    getUser := fun u => if u == "someuser" then .ok userEpoch
                        else .error "user lookup failed" }

/-- Claim C1 (counterexample): a PR changing the single file docs/README.md,
whose base name README.md starts with readme case-insensitively, is not
classified as a README-only edit even with readmeOnlyBlock enabled, because
the code tests the prefix of the whole path, not of the base name. -/
theorem isSingleFileReadmeEdit_basename_counterexample :
    cfgDefault.filters.readmeOnlyBlock = true ∧
    prDocsReadme.filesCount = 1 ∧
    prDocsReadme.files = ["docs/README.md"] ∧
    IsReadmeFile (baseName "docs/README.md") = true ∧
    isSingleFileReadmeEdit cfgDefault prDocsReadme = false :=
  ⟨rfl, rfl, rfl, by decide, by decide⟩

/-- Claim C1 (amended): the README-only-edit signal is true exactly when
readmeOnlyBlock is enabled, the PR reports exactly one changed file, and some
listed file name — the whole path, lower-cased — starts with readme; a single
file inside a directory therefore does not count. -/
theorem isSingleFileReadmeEdit_spec (cfg : Config) (pr : PullRequest) :
    isSingleFileReadmeEdit cfg pr = true ↔
      (cfg.filters.readmeOnlyBlock = true ∧ pr.filesCount = 1 ∧
        ∃ f ∈ pr.files, strStartsWith (strToLower f) "readme" = true) := by
  unfold isSingleFileReadmeEdit IsReadmeFile
  cases hb : cfg.filters.readmeOnlyBlock
  · simp
  · by_cases hc : pr.filesCount = 1
    · simp [hc, List.any_eq_true]
    · simp [hc, bne_iff_ne]

/-- Claim C1 (witness): the amended characterization applied to a PR whose
single changed file is a top-level README.md. -/
theorem isSingleFileReadmeEdit_spec_witness :
    isSingleFileReadmeEdit cfgDefault
      { prDocsReadme with files := ["README.md"] } = true :=
  (isSingleFileReadmeEdit_spec cfgDefault
      { prDocsReadme with files := ["README.md"] }).mpr
    ⟨rfl, rfl, "README.md", by decide, by decide⟩

/-- Claim C9: a PR has minimal changes iff its file count is below minFiles
or its total changed lines are below minLines (a disjunction), and at exactly
the default thresholds a PR with 2 files and 10 changed lines is not minimal. -/
theorem isMinimalChanges_spec :
    (∀ (cfg : Config) (pr : PullRequest), isMinimalChanges cfg pr = true ↔
      (pr.filesCount < cfg.filters.minFiles ∨
        pr.additions + pr.deletions < cfg.filters.minLines)) ∧
    isMinimalChanges cfgDefault prBoundary = false := by
  constructor
  · intro cfg pr
    unfold isMinimalChanges
    simp
  · decide

/-- Claim C10: the new-account signal is true iff the elapsed time from the
account creation to now is strictly below accountAgeDays days (in
nanoseconds), and an account whose age equals the threshold exactly is not
new. -/
theorem isNewAccount_spec :
    (∀ (cfg : Config) (now : Int) (user : User), isNewAccount cfg now user = true ↔
      now - user.createdAt < cfg.filters.accountAgeDays * 24 * 3600000000000) ∧
    isNewAccount cfgDefault 604800000000000 userEpoch = false := by
  constructor
  · intro cfg now user
    unfold isNewAccount
    simp
  · decide

/-- Claim C3: a whitelisted author always yields a clean result — not spam,
not uncertain, no reasons — whatever the PR, the time or the author record. -/
theorem ScanPR_whitelisted_clean (cfg : Config) (now : Int) (pr : PullRequest)
    (user : Option User) (h : isWhitelisted cfg pr.author = true) :
    (ScanPR cfg now pr user).isSpam = false ∧
    (ScanPR cfg now pr user).isUncertain = false ∧
    (ScanPR cfg now pr user).reasons = [] := by
  unfold ScanPR
  rw [h]
  exact ⟨rfl, rfl, rfl⟩

/-- Claim C3 (witness): the whitelisted bot account of the test fixture scans
clean. -/
theorem ScanPR_whitelisted_clean_witness :
    (ScanPR cfgDefault 0 prWhitelisted none).isSpam = false ∧
    (ScanPR cfgDefault 0 prWhitelisted none).isUncertain = false ∧
    (ScanPR cfgDefault 0 prWhitelisted none).reasons = [] :=
  ScanPR_whitelisted_clean cfgDefault 0 prWhitelisted none (by decide)

/-- Claim C4 (counterexample): a whitelisted author yields a result that is
neither spam nor uncertain, yet its recommended action is the empty string,
not the no-action-needed message — the early whitelist return skips the
action derivation. -/
theorem recommendAction_whitelisted_counterexample :
    (ScanPR cfgDefault 0 prWhitelisted none).isSpam = false ∧
    (ScanPR cfgDefault 0 prWhitelisted none).isUncertain = false ∧
    (ScanPR cfgDefault 0 prWhitelisted none).recommendAction = "" ∧
    (ScanPR cfgDefault 0 prWhitelisted none).recommendAction ≠ "No action needed" :=
  ⟨by decide, by decide, by decide, by decide⟩

/-- Claim C4 (amended): for a non-whitelisted author the recommended action
is derived solely from the final classification (spam, else uncertain, else
nothing to do), while a whitelisted author yields the empty action string. -/
theorem recommendAction_characterization (cfg : Config) (now : Int)
    (pr : PullRequest) (user : Option User) :
    (isWhitelisted cfg pr.author = true →
      (ScanPR cfg now pr user).recommendAction = "") ∧
    (isWhitelisted cfg pr.author = false →
      (ScanPR cfg now pr user).recommendAction =
        (if (ScanPR cfg now pr user).isSpam then "Block user and close PR"
         else if (ScanPR cfg now pr user).isUncertain then "Manual review recommended"
         else "No action needed")) := by
  constructor
  · intro h
    unfold ScanPR
    rw [h]
    rfl
  · intro h
    unfold ScanPR
    rw [h]
    rfl

/-- Claim C4 (witness): the amended characterization at the whitelisted
fixture, giving the empty action. -/
theorem recommendAction_characterization_witness :
    (ScanPR cfgDefault 0 prWhitelisted none).recommendAction = "" :=
  (recommendAction_characterization cfgDefault 0 prWhitelisted none).1 (by decide)

/-- Claim C5 (counterexample): a PR with minimal changes and a spam phrase in
its title scans with both isSpam and isUncertain true — the two flags are not
mutually exclusive. -/
theorem spam_and_uncertain_both_true_counterexample :
    (ScanPR cfgDefault 0 prSpamUncertain none).isSpam = true ∧
    (ScanPR cfgDefault 0 prSpamUncertain none).isUncertain = true :=
  ⟨by decide, by decide⟩

/-- Claim C5 (amended): for a non-whitelisted author, the two flags are both
true exactly when the PR is not a README-only edit, has a new-account or
minimal-changes signal, and matches a spam phrase; mutual exclusivity fails
precisely on those inputs. -/
theorem spam_and_uncertain_characterization (cfg : Config) (now : Int)
    (pr : PullRequest) (user : Option User)
    (h : isWhitelisted cfg pr.author = false) :
    ((ScanPR cfg now pr user).isSpam = true ∧
     (ScanPR cfg now pr user).isUncertain = true) ↔
      (isSingleFileReadmeEdit cfg pr = false ∧
       (userIsNew cfg now user = true ∨ isMinimalChanges cfg pr = true) ∧
       containsSpamPhrases cfg pr = true) := by
  unfold ScanPR
  rw [h]
  cases h1 : isSingleFileReadmeEdit cfg pr <;>
    cases h2 : userIsNew cfg now user <;>
      cases h3 : isMinimalChanges cfg pr <;>
        cases h4 : containsSpamPhrases cfg pr <;>
          simp

/-- Claim C5 (witness): the characterization applied to the concrete PR of
the counterexample. -/
theorem spam_and_uncertain_characterization_witness :
    ((ScanPR cfgDefault 0 prSpamUncertain none).isSpam = true ∧
     (ScanPR cfgDefault 0 prSpamUncertain none).isUncertain = true) ↔
      (isSingleFileReadmeEdit cfgDefault prSpamUncertain = false ∧
       (userIsNew cfgDefault 0 none = true ∨
        isMinimalChanges cfgDefault prSpamUncertain = true) ∧
       containsSpamPhrases cfgDefault prSpamUncertain = true) :=
  spam_and_uncertain_characterization cfgDefault 0 prSpamUncertain none (by decide)

/-- The repository fold appends each classification to exactly one bucket;
characterized by order-preserving filters of the classification list. -/
theorem scanFold_characterization (cfg : Config) (now : Int) (gh : GitHubClient)
    (prs : List PullRequest) : ∀ acc : ScanResults,
    prs.foldl (scanStep cfg now gh) acc =
      { total := acc.total,
        spam := acc.spam ++ (classifyAll cfg now gh prs).filter (fun r => r.isSpam),
        uncertain := acc.uncertain ++ (classifyAll cfg now gh prs).filter
          (fun r => !r.isSpam && r.isUncertain),
        clean := acc.clean ++ (classifyAll cfg now gh prs).filter
          (fun r => !r.isSpam && !r.isUncertain) } := by
  induction prs with
  | nil => intro acc; simp [classifyAll]
  | cons pr prs ih =>
    intro acc
    rw [List.foldl_cons, ih]
    unfold scanStep classifyAll
    simp only [List.map_cons, List.filter_cons]
    cases hs : (ScanPR cfg now pr (gh.getUser pr.author).toOption).isSpam <;>
      cases hu : (ScanPR cfg now pr (gh.getUser pr.author).toOption).isUncertain <;>
        simp [hs, hu, classifyAll]

/-- Each scan result lands in exactly one of the three buckets, so the three
filtered lengths sum to the length of the whole list. -/
theorem filter_partition_lengths (l : List ScanResult) :
    (l.filter (fun r => r.isSpam)).length +
      (l.filter (fun r => !r.isSpam && r.isUncertain)).length +
      (l.filter (fun r => !r.isSpam && !r.isUncertain)).length = l.length := by
  induction l with
  | nil => rfl
  | cons r l ih =>
    simp only [List.filter_cons]
    cases hs : r.isSpam <;> cases hu : r.isUncertain <;>
      simp [hs, hu] <;> omega

/-- Claim C8: when the PR fetch succeeds, ScanRepository classifies each PR
once, in fetch order, sets Total to the number of fetched PRs, partitions the
results into the three buckets (their sizes summing to Total), and a failed
author lookup only makes that PR classify with an absent author record. -/
theorem ScanRepository_partition (cfg : Config) (now : Int) (gh : GitHubClient)
    (owner repo : String) (prs : List PullRequest)
    (h : gh.getPullRequests owner repo = .ok prs) :
    ScanRepository cfg now gh owner repo = Except.ok
      { total := prs.length,
        spam := (classifyAll cfg now gh prs).filter (fun r => r.isSpam),
        uncertain := (classifyAll cfg now gh prs).filter
          (fun r => !r.isSpam && r.isUncertain),
        clean := (classifyAll cfg now gh prs).filter
          (fun r => !r.isSpam && !r.isUncertain) } ∧
    ((classifyAll cfg now gh prs).filter (fun r => r.isSpam)).length +
      ((classifyAll cfg now gh prs).filter (fun r => !r.isSpam && r.isUncertain)).length +
      ((classifyAll cfg now gh prs).filter (fun r => !r.isSpam && !r.isUncertain)).length
      = prs.length := by
  constructor
  · unfold ScanRepository
    rw [h]
    show Except.ok (prs.foldl (scanStep cfg now gh)
      { total := prs.length, spam := [], uncertain := [], clean := [] }) = _
    rw [scanFold_characterization]
    simp
  · have h1 := filter_partition_lengths (classifyAll cfg now gh prs)
    have h2 : (classifyAll cfg now gh prs).length = prs.length := by
      simp [classifyAll]
    omega

/-- Claim C8 (witness): the partition at a concrete two-PR repository whose
second author lookup fails. -/
theorem ScanRepository_partition_witness :
    ScanRepository cfgDefault 0 ghTwoPRs "owner" "repo" = Except.ok
      { total := [prSpamUncertain, prLarge].length,
        spam := (classifyAll cfgDefault 0 ghTwoPRs [prSpamUncertain, prLarge]).filter
          (fun r => r.isSpam),
        uncertain := (classifyAll cfgDefault 0 ghTwoPRs [prSpamUncertain, prLarge]).filter
          (fun r => !r.isSpam && r.isUncertain),
        clean := (classifyAll cfgDefault 0 ghTwoPRs [prSpamUncertain, prLarge]).filter
          (fun r => !r.isSpam && !r.isUncertain) } ∧
    ((classifyAll cfgDefault 0 ghTwoPRs [prSpamUncertain, prLarge]).filter
        (fun r => r.isSpam)).length +
      ((classifyAll cfgDefault 0 ghTwoPRs [prSpamUncertain, prLarge]).filter
        (fun r => !r.isSpam && r.isUncertain)).length +
      ((classifyAll cfgDefault 0 ghTwoPRs [prSpamUncertain, prLarge]).filter
        (fun r => !r.isSpam && !r.isUncertain)).length
      = [prSpamUncertain, prLarge].length :=
  ScanRepository_partition cfgDefault 0 ghTwoPRs "owner" "repo"
    [prSpamUncertain, prLarge] rfl

/-- The severity order of the spec and the severity map of the code agree. -/
theorem specSeverityRank_eq_severityMap (s : String) :
    specSeverityRank s = severityMap s := rfl

/-- importEntriesAux over the table-backed store agrees with the spec
reconciliation, for incoming entries with schema-valid severities. -/
theorem importEntriesAux_refines_spec (entries : List BlocklistEntry) :
    ∀ (store : List BlocklistEntry) (n : Nat),
      (∀ e ∈ entries, validSeverity e.severity = true) →
      importEntriesAux sqliteOps store n entries =
        .ok (specImport store entries).1 (n + (specImport store entries).2) := by
  induction entries with
  | nil => intro store n _; simp [importEntriesAux, specImport]
  | cons e rest ih =>
    intro store n hsev
    have hsevE : validSeverity e.severity = true := hsev e (by simp)
    have hsevRest : ∀ x ∈ rest, validSeverity x.severity = true :=
      fun x hx => hsev x (by simp [hx])
    have hget : sqliteOps.getEntry store e.id = .ok (GetEntry store e.id) := rfl
    have hgetAdd : sqliteOps.addEntry = AddEntry := rfl
    have hgetUpd : sqliteOps.updateEntry = UpdateEntry := rfl
    cases hfind : GetEntry store e.id with
    | none =>
      have hfindSpec : store.find? (fun x => x.id == e.id) = none := hfind
      have hany : store.any (fun x => x.id == e.id) = false := by
        rw [List.any_eq_false]
        intro x hx
        simpa using List.find?_eq_none.mp hfind x hx
      have hadd : AddEntry store { e with source := "imported" } =
          .ok (store ++ [{ e with source := "imported" }]) := by
        unfold AddEntry
        simp [hany, hsevE, validSource]
      have hspec1 : (specImport store (e :: rest)).1 =
          (specImport (store ++ [{ e with source := "imported" }]) rest).1 := by
        simp [specImport, hfindSpec]
      have hspec2 : (specImport store (e :: rest)).2 =
          (specImport (store ++ [{ e with source := "imported" }]) rest).2 + 1 := by
        simp [specImport, hfindSpec]
      simp only [importEntriesAux, hget, hfind, hgetAdd, hadd]
      rw [ih _ _ hsevRest, hspec1, hspec2]
      congr 1
      omega
    | some ex =>
      have hfindSpec : store.find? (fun x => x.id == e.id) = some ex := hfind
      by_cases hup : severityMap ex.severity < severityMap e.severity
      · have hshould : shouldUpdate ex e = true := by
          unfold shouldUpdate
          exact decide_eq_true hup
        have hupd : UpdateEntry store e = .ok (store.map (fun old =>
            if old.id == e.id then
              { old with reason := e.reason, evidenceURL := e.evidenceURL,
                         severity := e.severity, metadata := e.metadata }
            else old)) := by
          unfold UpdateEntry updateRow
          simp [hsevE]
        have hspec1 : (specImport store (e :: rest)).1 =
            (specImport (store.map (fun old =>
              if old.id == e.id then
                { old with reason := e.reason, evidenceURL := e.evidenceURL,
                           severity := e.severity, metadata := e.metadata }
              else old)) rest).1 := by
          simp [specImport, hfindSpec, specSeverityRank_eq_severityMap, hup]
        have hspec2 : (specImport store (e :: rest)).2 =
            (specImport (store.map (fun old =>
              if old.id == e.id then
                { old with reason := e.reason, evidenceURL := e.evidenceURL,
                           severity := e.severity, metadata := e.metadata }
              else old)) rest).2 + 1 := by
          simp [specImport, hfindSpec, specSeverityRank_eq_severityMap, hup]
        simp only [importEntriesAux, hget, hfind, hshould, Bool.true_eq_false,
          if_true, hgetUpd, hupd]
        rw [ih _ _ hsevRest, hspec1, hspec2]
        congr 1
        omega
      · have hshould : shouldUpdate ex e = false := by
          unfold shouldUpdate
          exact decide_eq_false hup
        have hspec : specImport store (e :: rest) = specImport store rest := by
          simp [specImport, hfindSpec, specSeverityRank_eq_severityMap, hup]
        simp only [importEntriesAux, hget, hfind, hshould, Bool.false_eq_true,
          if_false]
        rw [ih _ _ hsevRest, hspec]

/-- Claim C2: the import loop refines the reconciliation the spec describes —
per incoming entry with a schema-valid severity: insert with source forced to
imported when the id is absent, overwrite reason, evidenceUrl, severity and
metadata (never id or timestamp) when the incoming severity is strictly
greater, skip silently otherwise, and return the count of entries actually
inserted or updated. -/
theorem importEntries_refines_specImport (store entries : List BlocklistEntry)
    (hsev : ∀ e ∈ entries, validSeverity e.severity = true) :
    importEntries sqliteOps store entries =
      .ok (specImport store entries).1 (specImport store entries).2 := by
  have h := importEntriesAux_refines_spec entries store 0 hsev
  simpa [importEntries] using h

/-- Claim C2 (witness): one run exercising all three branches — an update by
strictly higher severity, an insert of a fresh id, and a silent skip of a
lower severity. -/
theorem importEntries_refines_specImport_witness :
    importEntries sqliteOps [entryLow] [entryHighSameId, entryMedB, entryLow] =
      .ok (specImport [entryLow] [entryHighSameId, entryMedB, entryLow]).1
        (specImport [entryLow] [entryHighSameId, entryMedB, entryLow]).2 :=
  importEntries_refines_specImport [entryLow] [entryHighSameId, entryMedB, entryLow]
    (by decide)

/-- Claim C6 (counterexample): an import whose only lookup succeeds still
aborts with a surfaced error, because the insert hits the severity CHECK
constraint — the lookup is not the only failure path. -/
theorem import_failure_not_only_lookup_counterexample :
    sqliteOps.getEntry ([] : List BlocklistEntry) entryBadSeverity.id =
      Except.ok none ∧
    importEntries sqliteOps ([] : List BlocklistEntry) [entryBadSeverity] =
      .err [] 0 "failed to add entry: CHECK constraint failed: blocklist" :=
  ⟨rfl, by decide⟩

/-- Claim C6 (amended): every storage failure aborts the import and surfaces
the wrapped underlying error — the per-entry lookup, the update and the
insert alike; none of them is skipped. -/
theorem importEntries_error_paths {σ : Type} (ops : DBOps σ) (s : σ) (n : Nat)
    (entry : BlocklistEntry) (rest : List BlocklistEntry) (msg : String) :
    (ops.getEntry s entry.id = .error msg →
      importEntriesAux ops s n (entry :: rest) =
        .err s n ("failed to check for existing entry: " ++ msg)) ∧
    (∀ existing, ops.getEntry s entry.id = .ok (some existing) →
      shouldUpdate existing entry = true →
      ops.updateEntry s entry = .error msg →
      importEntriesAux ops s n (entry :: rest) =
        .err s n ("failed to update entry: " ++ msg)) ∧
    (ops.getEntry s entry.id = .ok none →
      ops.addEntry s { entry with source := "imported" } = .error msg →
      importEntriesAux ops s n (entry :: rest) =
        .err s n ("failed to add entry: " ++ msg)) := by
  refine ⟨fun h => ?_, fun existing h1 h2 h3 => ?_, fun h1 h2 => ?_⟩
  · unfold importEntriesAux
    rw [h]
  · unfold importEntriesAux
    rw [h1]
    simp [h2, h3]
  · unfold importEntriesAux
    rw [h1]
    simp [h2]

/-- Claim C6 (witness): a store whose lookups fail makes the import abort at
once with the wrapped lookup error. -/
theorem importEntries_error_paths_witness :
    importEntriesAux failingOps [] 0 [entryLow] =
      .err [] 0 "failed to check for existing entry: disk failure" :=
  (importEntries_error_paths failingOps [] 0 entryLow [] "disk failure").1 rfl

/-- Importing entries none of which collides with the store, with pairwise
distinct ids and schema-valid severities, inserts all of them in order with
source forced to imported. -/
theorem importEntriesAux_all_new (entries : List BlocklistEntry) :
    ∀ (acc : List BlocklistEntry) (n : Nat),
      (∀ e ∈ entries, validSeverity e.severity = true) →
      (entries.map BlocklistEntry.id).Nodup →
      (∀ e ∈ entries, GetEntry acc e.id = none) →
      importEntriesAux sqliteOps acc n entries =
        .ok (acc ++ entries.map setSourceImported) (n + entries.length) := by
  induction entries with
  | nil => intro acc n _ _ _; simp [importEntriesAux]
  | cons e rest ih =>
    intro acc n hsev hnodup hget
    have hsevE : validSeverity e.severity = true := hsev e (by simp)
    have hgetE : GetEntry acc e.id = none := hget e (by simp)
    have hgetOps : sqliteOps.getEntry acc e.id = .ok (GetEntry acc e.id) := rfl
    have hgetAdd : sqliteOps.addEntry = AddEntry := rfl
    have hany : acc.any (fun x => x.id == e.id) = false := by
      rw [List.any_eq_false]
      intro x hx
      simpa using List.find?_eq_none.mp hgetE x hx
    have hadd : AddEntry acc { e with source := "imported" } =
        .ok (acc ++ [{ e with source := "imported" }]) := by
      unfold AddEntry
      simp [hany, hsevE, validSource]
    have hnodPair : (∀ x ∈ rest, ¬ x.id = e.id) ∧
        (rest.map BlocklistEntry.id).Nodup := by
      simpa using hnodup
    have hgetRest : ∀ x ∈ rest,
        GetEntry (acc ++ [{ e with source := "imported" }]) x.id = none := by
      intro x hx
      rw [GetEntry, List.find?_eq_none]
      intro y hy
      rcases List.mem_append.mp hy with hyAcc | hySingle
      · simpa using List.find?_eq_none.mp (hget x (by simp [hx])) y hyAcc
      · have hyEq : y = { e with source := "imported" } := by simpa using hySingle
        subst hyEq
        have hne : ¬ e.id = x.id := fun hcontra => hnodPair.1 x hx hcontra.symm
        simpa using hne
    simp only [importEntriesAux, hgetOps, hgetE, hgetAdd, hadd]
    rw [ih _ _ (fun x hx => hsev x (by simp [hx])) hnodPair.2 hgetRest]
    have hlist : acc ++ [{ e with source := "imported" }] ++
        rest.map setSourceImported = acc ++ (e :: rest).map setSourceImported := by
      simp [setSourceImported]
    rw [hlist]
    congr 1
    simp
    omega

/-- Claim C7: exporting a well-formed blocklist (distinct ids, schema-valid
severities) to JSON and importing it into an empty store inserts every
exported entry — none skipped — and produces, up to row order, exactly the
original entries with source forced to imported. -/
theorem export_import_roundtrip (tbl : List BlocklistEntry)
    (hids : (tbl.map BlocklistEntry.id).Nodup)
    (hsev : ∀ e ∈ tbl, validSeverity e.severity = true) :
    importEntries sqliteOps [] (exportJSON tbl) =
      .ok ((exportJSON tbl).map setSourceImported) (exportJSON tbl).length ∧
    ((exportJSON tbl).map setSourceImported).Perm (tbl.map setSourceImported) ∧
    (exportJSON tbl).length = tbl.length := by
  have hperm : (exportJSON tbl).Perm tbl := by
    unfold exportJSON listEntries
    exact List.perm_insertionSort _ tbl
  have hsevX : ∀ e ∈ exportJSON tbl, validSeverity e.severity = true :=
    fun e he => hsev e (hperm.mem_iff.mp he)
  have hidsX : ((exportJSON tbl).map BlocklistEntry.id).Nodup :=
    ((hperm.map BlocklistEntry.id).nodup_iff).mpr hids
  refine ⟨?_, hperm.map setSourceImported, hperm.length_eq⟩
  have h := importEntriesAux_all_new (exportJSON tbl) [] 0 hsevX hidsX
    (fun e _ => rfl)
  simpa [importEntries] using h

/-- Claim C7 (witness): the round trip on a concrete two-entry blocklist. -/
theorem export_import_roundtrip_witness :
    importEntries sqliteOps [] (exportJSON [entryLow, entryMedB]) =
      .ok ((exportJSON [entryLow, entryMedB]).map setSourceImported)
        (exportJSON [entryLow, entryMedB]).length ∧
    ((exportJSON [entryLow, entryMedB]).map setSourceImported).Perm
      ([entryLow, entryMedB].map setSourceImported) ∧
    (exportJSON [entryLow, entryMedB]).length = [entryLow, entryMedB].length :=
  export_import_roundtrip [entryLow, entryMedB] (by decide) (by decide)

end PRGuard
